import Mathlib

/-!
Shallow embedding of `tgext/rq/rq_gevent_worker.py` (class `GeventWorker`),
together with proofs of the behavioural claims about its dispatch loop,
bounded greenlet pool, heartbeat protocol, shutdown state machine and
completion chaining.

The pure computations of the source (pool-size selection, dequeue-timeout
computation, the `job_done` callback body) are translated directly as Lean
functions.  The sequential control flow of `_work` and
`dequeue_job_and_maintain_ttl` is translated as script-driven functions that
record the externally visible events (heartbeats, dequeue calls, admissions,
cleanup) of one run, where a script fixes the behaviour of the external
collaborators (the queue backend and the pool's completion notifications).
The concurrent behaviour (signal handlers racing with the loop, pool
admission bounded by capacity, completion callbacks) is modelled as a
small-step transition relation `Step` on worker states.
-/

namespace TgextRq

/-- Terminal job statuses as seen by the worker.  The source only ever
compares a status against `JobStatus.FINISHED` (line 187). -/
inductive JobStatus
  | finished
  | failed
  | canceled
  | other
  deriving DecidableEq, Repr

/-- Module constant `DEFAULT_LOGGING_DATE_FORMAT` (line 24). -/
def DEFAULT_LOGGING_DATE_FORMAT : String := "%H:%M:%S"

/-- Module constant `DEFAULT_LOGGING_FORMAT` (line 25). -/
def DEFAULT_LOGGING_FORMAT : String := "%(asctime)s %(message)s"

/-- Class constant `GeventWorker.DEFAULT_POOL_SIZE` (line 42). -/
def DEFAULT_POOL_SIZE : Nat := 20

/-- Pool size fixed in `GeventWorker.__init__` (lines 44-48): the
`pool_size` keyword argument when given, else `DEFAULT_POOL_SIZE`. -/
def initPoolSize (poolSizeKwarg : Option Nat) : Nat :=
  match poolSizeKwarg with
  | some n => n
  | none => DEFAULT_POOL_SIZE

/-- Dequeue timeout computed at line 138 of `_work`:
`timeout = None if burst else max(1, self.default_worker_ttl - 60)`. -/
def computeTimeout (burst : Bool) (defaultWorkerTtl : Int) : Option Int :=
  if burst then none else some (max 1 (defaultWorkerTtl - 60))

/-- Effects performed by the `job_done` completion callback. -/
inductive JEffect
  | setDidPerformWork
  | heartbeat
  | enqueueDependents
  deriving DecidableEq, Repr

/-- Body of the `job_done` callback defined inside `execute_job`
(lines 184-188): set `did_perform_work`, renew the heartbeat, and enqueue
dependents exactly when the job status reads FINISHED. -/
def job_done (status : JobStatus) : List JEffect :=
  [JEffect.setDidPerformWork, JEffect.heartbeat] ++
    (if status = JobStatus.finished then [JEffect.enqueueDependents] else [])

/-! ## The dequeue gateway: `dequeue_job_and_maintain_ttl` (lines 193-229)

A run of the gateway is driven by a `DqScript`: how many rounds end with the
backend raising `DequeueTimeout`, how many pool-full sleep cycles precede
each call to `dequeue_any`, and the final returned result. -/

/-- Events visible during `dequeue_job_and_maintain_ttl`. -/
inductive DEv
  | heartbeat
  | setStateBusy
  | logPoolFull
  | sleep
  | dequeueAny (timeout : Option Int)
  | setStateIdle
  | logJob
  deriving DecidableEq, Repr

/-- Events of the pool-full guard (lines 204-213): when the pool is full,
set the BUSY state and log once, then sleep 0.1s per wait cycle until a
slot frees; when not full, nothing. -/
def fullWaitEvs : Nat → List DEv
  | 0 => []
  | Nat.succ n =>
      DEv.setStateBusy :: DEv.logPoolFull :: List.replicate (n + 1) DEv.sleep

/-- Events of one round of the inner dequeue loop up to the `dequeue_any`
call (lines 199-218): a heartbeat, the pool-full wait, then the call. -/
def attemptEvs (timeout : Option Int) (waits : Nat) : List DEv :=
  DEv.heartbeat :: (fullWaitEvs waits ++ [DEv.dequeueAny timeout])

/-- Environment script for one call of `dequeue_job_and_maintain_ttl`:
`timeoutRounds` gives the pool-full wait count of each round whose
`dequeue_any` raises `DequeueTimeout`; the last round waits `lastWaits`
cycles and its `dequeue_any` returns `result`. -/
structure DqScript where
  timeoutRounds : List Nat
  lastWaits : Nat
  result : Option Nat
  deriving Repr

/-- Inner `while True` loop of `dequeue_job_and_maintain_ttl`
(lines 198-226): rounds ending in `DequeueTimeout` fall through the
`except` and repeat; the round whose `dequeue_any` returns sets the IDLE
state, logs the job when one was returned, and breaks. -/
def dqRounds (timeout : Option Int) :
    List Nat → Nat → Option Nat → List DEv
  | [], lastWaits, r =>
      attemptEvs timeout lastWaits ++
        (DEv.setStateIdle :: (if r.isSome then [DEv.logJob] else []))
  | w :: rest, lastWaits, r =>
      attemptEvs timeout w ++ dqRounds timeout rest lastWaits r

/-- Function `dequeue_job_and_maintain_ttl` (lines 193-229): raise
`StopRequested` when the stop flag is set (modelled as `Except.error`),
otherwise run the inner loop and finish with one more heartbeat
(line 228) before returning the result. -/
def dequeue_job_and_maintain_ttl (stopRequested : Bool) (timeout : Option Int)
    (sc : DqScript) : Except Unit (Option Nat) × List DEv :=
  if stopRequested then (Except.error (), [])
  else
    (Except.ok sc.result,
      dqRounds timeout sc.timeoutRounds sc.lastWaits sc.result ++ [DEv.heartbeat])

/-- Liveness-relevant events: heartbeats and `dequeue_any` calls. -/
def isLiveness (e : DEv) : Bool :=
  match e with
  | DEv.heartbeat => true
  | DEv.dequeueAny _ => true
  | _ => false

/-! ## The work loop: `_work` and `work` (lines 90-181)

A run of `_work` is driven by a list of `IterIn` records, one per loop
iteration of the `while True` at line 127, fixing what the collaborators do
during that iteration: whether maintenance is due, the value of
`_stop_requested` at the line-134 check, the completion callbacks that fired
during the iteration's cooperative yields, and the outcome of each of the up
to two calls to `dequeue_job_and_maintain_ttl`. -/

/-- Outcome of one call to `dequeue_job_and_maintain_ttl` as seen from
`_work`: the call raised `StopRequested`, raised some other (fatal)
exception, or returned `result` (`None` or a job with its queue, the job
modelled by a numeric identity). -/
inductive DqOutcome
  | raised
  | errored
  | ret (r : Option Nat)
  deriving DecidableEq, Repr

/-- Environment behaviour during one iteration of the `_work` loop. -/
structure IterIn where
  maintenanceDue : Bool
  stopAtTop : Bool
  completions : List JobStatus
  dq1 : DqOutcome
  dq2 : DqOutcome
  deriving Repr

/-- Events visible during `_work`. -/
inductive WEv
  | setupLoghandlers (lvl : String)
  | installSignalHandlers
  | registerBirth
  | logWorkerStarted
  | setStateStarted
  | schedAcquireLocks
  | schedEnqueueScheduledJobs
  | schedReleaseLocks
  | schedStart
  | jobCompleted (st : JobStatus)
  | checkForSuspension (burst : Bool)
  | runMaintenanceTasks
  | logStoppingOnRequest
  | dequeueCall (timeout : Option Int)
  | logBurstDone
  | hubSwitch
  | admitJob (j : Nat)
  | stopScheduler
  | registerDeath
  deriving DecidableEq, Repr

/-- How one iteration of the `_work` loop ends. -/
inductive IterRes
  | broke
  | errored
  | admitted (j : Nat)
  deriving DecidableEq, Repr

/-- How the whole `_work` loop ends: it broke out normally, a fatal
exception propagated, or the observation script ran out while the loop was
still going. -/
inductive LoopRes
  | broke
  | errored
  | ranOut
  deriving DecidableEq, Repr

/-- Events at the head of one loop iteration: the completion callbacks that
fire at the iteration's cooperative yields, then `check_for_suspension`
(line 129) and maintenance when due (lines 131-132). -/
def iterPreEvs (burst : Bool) (it : IterIn) : List WEv :=
  it.completions.map WEv.jobCompleted ++
    (WEv.checkForSuspension burst ::
      (if it.maintenanceDue then [WEv.runMaintenanceTasks] else []))

/-- One iteration of the `while True` loop of `_work` (lines 127-157):
the head events, the `_stop_requested` check (line 134, break when set),
the dequeue call (line 140), the burst-mode empty-result retry
(lines 141-149: log, yield via the hub switch, one more dequeue call), the
empty-result break (line 151), the `StopRequested` handler (line 153,
break), and finally `execute_job` admitting the returned job
(lines 156-157). -/
def runIter (burst : Bool) (timeout : Option Int) (it : IterIn) :
    List WEv × IterRes :=
  let pre := iterPreEvs burst it
  if it.stopAtTop then (pre ++ [WEv.logStoppingOnRequest], IterRes.broke)
  else
    match it.dq1 with
    | DqOutcome.raised => (pre ++ [WEv.dequeueCall timeout], IterRes.broke)
    | DqOutcome.errored => (pre ++ [WEv.dequeueCall timeout], IterRes.errored)
    | DqOutcome.ret r =>
      if burst && r.isNone then
        let evs2 := pre ++ [WEv.dequeueCall timeout, WEv.logBurstDone,
          WEv.hubSwitch, WEv.dequeueCall timeout]
        match it.dq2 with
        | DqOutcome.raised => (evs2, IterRes.broke)
        | DqOutcome.errored => (evs2, IterRes.errored)
        | DqOutcome.ret r2 =>
          match r2 with
          | none => (evs2, IterRes.broke)
          | some j => (evs2 ++ [WEv.admitJob j], IterRes.admitted j)
      else
        match r with
        | none => (pre ++ [WEv.dequeueCall timeout], IterRes.broke)
        | some j =>
          (pre ++ [WEv.dequeueCall timeout, WEv.admitJob j], IterRes.admitted j)

/-- The `while True` loop of `_work`, threading `did_perform_work` (set to
true by every completion callback, line 185) through the iterations. -/
def workLoop (burst : Bool) (timeout : Option Int) (dpw : Bool) :
    List IterIn → LoopRes × Bool × List WEv
  | [] => (LoopRes.ranOut, dpw, [])
  | it :: rest =>
    let r := runIter burst timeout it
    let dpw1 := dpw || !it.completions.isEmpty
    match r.2 with
    | IterRes.broke => (LoopRes.broke, dpw1, r.1)
    | IterRes.errored => (LoopRes.errored, dpw1, r.1)
    | IterRes.admitted _ =>
      let rest' := workLoop burst timeout dpw1 rest
      (rest'.1, rest'.2.1, r.1 ++ rest'.2.2)

/-- Static worker configuration consumed by `_work`. -/
structure WorkerCfg where
  isHorse : Bool
  defaultWorkerTtl : Int
  lockAcquired : Bool
  deriving Repr

/-- Startup events of `_work` (lines 102-109): logging setup,
signal-handler installation, birth registration, startup log, STARTED
state. -/
def setupEvs (loggingLevel : String) : List WEv :=
  [WEv.setupLoghandlers loggingLevel, WEv.installSignalHandlers,
   WEv.registerBirth, WEv.logWorkerStarted, WEv.setStateStarted]

/-- Events of the scheduler setup (lines 111-124). -/
def schedSetupEvs (withScheduler lockAcquired burst : Bool) : List WEv :=
  if withScheduler then
    WEv.schedAcquireLocks ::
      (if lockAcquired then
        (if burst then [WEv.schedEnqueueScheduledJobs, WEv.schedReleaseLocks]
         else [WEv.schedStart])
       else [])
  else []

/-- Events of the `finally` block (lines 159-164): when this worker is not
a horse, stop the scheduler when one was created and register death. -/
def finallyEvs (isHorse withScheduler : Bool) : List WEv :=
  if isHorse then []
  else (if withScheduler then [WEv.stopScheduler] else []) ++
    [WEv.registerDeath]

/-- Method `_work` (lines 90-165): the startup events, the optional
scheduler setup, the main loop with the timeout of line 138, and the
`finally` block.  Returns how the loop ended, the `did_perform_work` value
returned at line 165, and the event trace.  The `max_jobs` parameter is
accepted as in the source signature (line 93) and, as in the source body,
never read. -/
def _work (cfg : WorkerCfg) (script : List IterIn) (burst : Bool)
    (loggingLevel : String) (dateFormat : String) (logFormat : String)
    (maxJobs : Option Nat) (withScheduler : Bool) :
    LoopRes × Bool × List WEv :=
  let timeout := computeTimeout burst cfg.defaultWorkerTtl
  let res := workLoop burst timeout false script
  (res.1, res.2.1,
    setupEvs loggingLevel ++ schedSetupEvs withScheduler cfg.lockAcquired burst ++
      res.2.2 ++ finallyEvs cfg.isHorse withScheduler)

/-- Method `work` (lines 167-181): in burst mode call `_work` directly with
the given logging level; otherwise spawn `_work` in a greenlet (which
therefore receives the default logging level) and return its value.  In
both branches only `burst` and `with_scheduler` are forwarded; `max_jobs`,
`date_format` and `log_format` are not. -/
def work (cfg : WorkerCfg) (script : List IterIn) (burst : Bool)
    (loggingLevel : String) (dateFormat : String) (logFormat : String)
    (maxJobs : Option Nat) (withScheduler : Bool) :
    LoopRes × Bool × List WEv :=
  if burst then
    _work cfg script burst loggingLevel DEFAULT_LOGGING_DATE_FORMAT
      DEFAULT_LOGGING_FORMAT none withScheduler
  else
    _work cfg script burst "INFO" DEFAULT_LOGGING_DATE_FORMAT
      DEFAULT_LOGGING_FORMAT none withScheduler

/-- Recogniser for completion-callback events. -/
def isJobCompletedEv (e : WEv) : Bool :=
  match e with
  | WEv.jobCompleted _ => true
  | _ => false

/-- Recogniser for dequeue-call events. -/
def isDequeueCallEv (e : WEv) : Bool :=
  match e with
  | WEv.dequeueCall _ => true
  | _ => false

/-! ## Small-step machine for the concurrent behaviour

The dispatch loop, the bounded greenlet pool and the signal handlers run
interleaved on one cooperative scheduler.  `MState` holds the shared state:
the pool capacity fixed in `__init__`, the identities of the in-flight
greenlets (`slots`, with `nextId` the next fresh identity), the
`_stop_requested` flag, whether the signal handlers have been re-armed to
the cold path, and the control position of the `_work` greenlet
(`phase`).  `Step` is one interleaved transition. -/

/-- Effects of the signal-handler bodies (lines 61-85).
`registerDeath` is never produced by either handler; it is included so
that its absence from a handler's effect list is expressible. -/
inductive SEffect
  | stopScheduler
  | rearmSignals
  | logWarmShutdown
  | joinPool
  | killWorkerGreenlet
  | logColdShutdown
  | killAll
  | systemExit
  | registerDeath
  deriving DecidableEq, Repr

/-- Control position of the `_work` greenlet. -/
inductive Phase
  | loopTop
  | dqCheck
  | dqBlocked
  | returned
  | exited
  deriving DecidableEq, Repr

/-- Shared worker state for the interleaved semantics. -/
structure MState where
  capacity : Nat
  slots : List Nat
  nextId : Nat
  stopRequested : Bool
  handlersCold : Bool
  hasScheduler : Bool
  hasWorkerGreenlet : Bool
  phase : Phase
  dead : Bool
  deriving DecidableEq, Repr

/-- Current in-flight count of the pool (`len(self.gevent_pool)`). -/
def MState.inFlight (s : MState) : Nat := s.slots.length

/-- Handler `request_force_stop` (lines 62-65): log the cold shutdown,
kill every greenlet in the pool, raise `SystemExit`. -/
def request_force_stop (s : MState) : MState × List SEffect :=
  ({ s with dead := true, slots := [] },
   [SEffect.logColdShutdown, SEffect.killAll, SEffect.systemExit])

/-- Handler `request_stop` (lines 67-82): when a stop was not yet
requested, stop the scheduler when one is running, re-arm SIGINT/SIGTERM to
`request_force_stop`, log, set `_stop_requested`, join the pool, and kill
the worker greenlet (when one exists) with `StopRequested`. -/
def request_stop (s : MState) : MState × List SEffect :=
  if s.stopRequested then (s, [])
  else
    ({ s with stopRequested := true, handlersCold := true },
     (if s.hasScheduler then [SEffect.stopScheduler] else []) ++
       (SEffect.rearmSignals :: SEffect.logWarmShutdown :: SEffect.joinPool ::
         (if s.hasWorkerGreenlet then [SEffect.killWorkerGreenlet] else [])))

/-- Dispatch of a SIGINT/SIGTERM: the handlers installed at lines 84-85 run
`request_stop`; once `request_stop` has re-armed them (lines 72-73), a
further signal runs `request_force_stop`. -/
def handleSignal (s : MState) : MState × List SEffect :=
  if s.handlersCold then request_force_stop s else request_stop s

/-- Labels of the interleaved transitions. -/
inductive MEvent
  | enterDequeue
  | observeStop
  | dqStopRaised
  | dqCall
  | fullSleep
  | dqTimeout
  | dqReturned
  | dqEmptyRetry
  | dqEmptyBreak
  | spawn (id : Nat)
  | complete (id : Nat) (st : JobStatus)
  | signal (effs : List SEffect)
  | workerKilled
  deriving DecidableEq, Repr

/-- Recogniser for pool admissions. -/
def MEvent.isAdmit (e : MEvent) : Bool :=
  match e with
  | MEvent.spawn _ => true
  | _ => false

/-- Recogniser for a completion callback of the slot with identity `id`. -/
def MEvent.isCompleteOf (id : Nat) (e : MEvent) : Bool :=
  match e with
  | MEvent.complete i _ => i = id
  | _ => false

/-- One interleaved transition of the worker.  The `_work` greenlet moves
between phases following the control flow of lines 127-157 and 193-229:

* `enterDequeue` — the line-134 check sees no stop request and the loop
  reaches the dequeue call (lines 138-140);
* `observeStop` — the line-134 check sees the stop request and breaks;
* `dqStopRaised` — a check inside `dequeue_job_and_maintain_ttl`
  (line 194, 199 or 212) sees the stop request and raises `StopRequested`,
  caught at line 153, breaking the loop;
* `dqCall` — the pool is below capacity, so the gateway calls
  `dequeue_any` (line 216);
* `fullSleep` — the pool is at capacity, so the gateway sleeps (line 211);
* `dqTimeout` — `dequeue_any` raised `DequeueTimeout`; the inner loop
  repeats (lines 225-226);
* `dqReturned` — `dequeue_any` returned a job; no stop check runs between
  this return and the admission (lines 220-229, 156-157);
* `dqEmptyRetry` — `dequeue_any` returned `None` and burst mode retries
  once, re-entering the gateway (lines 141-149);
* `dqEmptyBreak` — `dequeue_any` returned `None` and the loop breaks
  (line 151);
* `spawn` — `execute_job` spawns the job into the pool (line 190), which
  admits only below capacity (a spawn at capacity blocks);
* `complete` — an in-flight greenlet finished (normally, failing, or
  killed) and the pool runs its `job_done` link callback once, removing
  the slot;
* `signal` — a SIGINT/SIGTERM is delivered and the armed handler runs;
* `workerKilled` — the `kill(StopRequested)` issued by `request_stop`
  (lines 81-82) lands in the `_work` greenlet, which exits the loop. -/
inductive Step : MState → MEvent → MState → Prop
  | enterDequeue {s : MState} (hd : s.dead = false) (hp : s.phase = Phase.loopTop)
      (hs : s.stopRequested = false) :
      Step s MEvent.enterDequeue { s with phase := Phase.dqCheck }
  | observeStop {s : MState} (hd : s.dead = false) (hp : s.phase = Phase.loopTop)
      (hs : s.stopRequested = true) :
      Step s MEvent.observeStop { s with phase := Phase.exited }
  | dqStopRaised {s : MState} (hd : s.dead = false) (hp : s.phase = Phase.dqCheck)
      (hs : s.stopRequested = true) :
      Step s MEvent.dqStopRaised { s with phase := Phase.exited }
  | dqCall {s : MState} (hd : s.dead = false) (hp : s.phase = Phase.dqCheck)
      (hs : s.stopRequested = false) (hcap : s.slots.length < s.capacity) :
      Step s MEvent.dqCall { s with phase := Phase.dqBlocked }
  | fullSleep {s : MState} (hd : s.dead = false) (hp : s.phase = Phase.dqCheck)
      (hs : s.stopRequested = false) (hcap : s.capacity ≤ s.slots.length) :
      Step s MEvent.fullSleep s
  | dqTimeout {s : MState} (hd : s.dead = false) (hp : s.phase = Phase.dqBlocked) :
      Step s MEvent.dqTimeout { s with phase := Phase.dqCheck }
  | dqReturned {s : MState} (hd : s.dead = false) (hp : s.phase = Phase.dqBlocked) :
      Step s MEvent.dqReturned { s with phase := Phase.returned }
  | dqEmptyRetry {s : MState} (hd : s.dead = false) (hp : s.phase = Phase.dqBlocked) :
      Step s MEvent.dqEmptyRetry { s with phase := Phase.dqCheck }
  | dqEmptyBreak {s : MState} (hd : s.dead = false) (hp : s.phase = Phase.dqBlocked) :
      Step s MEvent.dqEmptyBreak { s with phase := Phase.exited }
  | spawn {s : MState} (hd : s.dead = false) (hp : s.phase = Phase.returned)
      (hcap : s.slots.length < s.capacity) :
      Step s (MEvent.spawn s.nextId)
        { s with slots := s.nextId :: s.slots, nextId := s.nextId + 1,
                 phase := Phase.loopTop }
  | complete {s : MState} {id : Nat} (st : JobStatus) (hd : s.dead = false)
      (hm : id ∈ s.slots) :
      Step s (MEvent.complete id st) { s with slots := s.slots.erase id }
  | signal {s : MState} (hd : s.dead = false) :
      Step s (MEvent.signal (handleSignal s).2) (handleSignal s).1
  | workerKilled {s : MState} (hd : s.dead = false)
      (hs : s.stopRequested = true) (hp : s.phase ≠ Phase.exited) :
      Step s MEvent.workerKilled { s with phase := Phase.exited }

/-- Finite interleaved runs, collecting the transition labels. -/
inductive Steps : MState → List MEvent → MState → Prop
  | refl {s : MState} : Steps s [] s
  | cons {s s' s'' : MState} {e : MEvent} {tr : List MEvent}
      (h : Step s e s') (hs : Steps s' tr s'') : Steps s (e :: tr) s''

/-- Initial shared state: the pool built in `__init__` with the capacity
chosen from the keyword arguments, no greenlet in flight, no stop
requested, handlers armed to the warm path, the loop at its top. -/
def initState (poolSizeKwarg : Option Nat) (hasScheduler hasWorkerGreenlet : Bool) :
    MState :=
  { capacity := initPoolSize poolSizeKwarg, slots := [], nextId := 0,
    stopRequested := false, handlersCold := false,
    hasScheduler := hasScheduler, hasWorkerGreenlet := hasWorkerGreenlet,
    phase := Phase.loopTop, dead := false }

/-- State invariant: in-flight identities are distinct and fresh with
respect to `nextId`, and the pool never holds more than `capacity`. -/
def Inv (s : MState) : Prop :=
  s.slots.Nodup ∧ (∀ id ∈ s.slots, id < s.nextId) ∧
    s.slots.length ≤ s.capacity

lemma handleSignal_phase (s : MState) : (handleSignal s).1.phase = s.phase := by
  unfold handleSignal request_force_stop request_stop
  split
  · rfl
  · split <;> rfl

lemma handleSignal_capacity (s : MState) :
    (handleSignal s).1.capacity = s.capacity := by
  unfold handleSignal request_force_stop request_stop
  split
  · rfl
  · split <;> rfl

lemma handleSignal_nextId (s : MState) :
    (handleSignal s).1.nextId = s.nextId := by
  unfold handleSignal request_force_stop request_stop
  split
  · rfl
  · split <;> rfl

lemma handleSignal_slots (s : MState) :
    (handleSignal s).1.slots = [] ∨ (handleSignal s).1.slots = s.slots := by
  unfold handleSignal request_force_stop request_stop
  split
  · exact Or.inl rfl
  · split
    · exact Or.inr rfl
    · exact Or.inr rfl

lemma initState_inv (poolSizeKwarg : Option Nat) (hs hw : Bool) :
    Inv (initState poolSizeKwarg hs hw) := by
  refine ⟨List.nodup_nil, ?_, ?_⟩
  · intro id hid
    simp [initState] at hid
  · simp [initState]

/-- Every transition preserves the state invariant; in particular the
in-flight count stays within capacity. -/
lemma step_inv {s s' : MState} {e : MEvent} (h : Step s e s') (hi : Inv s) :
    Inv s' := by
  obtain ⟨hnd, hlt, hle⟩ := hi
  cases h with
  | enterDequeue hd hp hs => exact ⟨hnd, hlt, hle⟩
  | observeStop hd hp hs => exact ⟨hnd, hlt, hle⟩
  | dqStopRaised hd hp hs => exact ⟨hnd, hlt, hle⟩
  | dqCall hd hp hs hcap => exact ⟨hnd, hlt, hle⟩
  | fullSleep hd hp hs hcap => exact ⟨hnd, hlt, hle⟩
  | dqTimeout hd hp => exact ⟨hnd, hlt, hle⟩
  | dqReturned hd hp => exact ⟨hnd, hlt, hle⟩
  | dqEmptyRetry hd hp => exact ⟨hnd, hlt, hle⟩
  | dqEmptyBreak hd hp => exact ⟨hnd, hlt, hle⟩
  | workerKilled hd hs hp => exact ⟨hnd, hlt, hle⟩
  | spawn hd hp hcap =>
      refine ⟨?_, ?_, ?_⟩
      · exact List.nodup_cons.mpr
          ⟨fun hmem => absurd (hlt _ hmem) (lt_irrefl _), hnd⟩
      · intro id hid
        rcases List.mem_cons.mp hid with h1 | h1
        · subst h1
          exact Nat.lt_succ_self _
        · exact Nat.lt_succ_of_lt (hlt _ h1)
      · simpa using Nat.succ_le_of_lt hcap
  | complete st hd hm =>
      refine ⟨hnd.erase _, ?_, ?_⟩
      · intro id hid
        exact hlt _ (List.mem_of_mem_erase hid)
      · exact le_trans (List.erase_sublist _ _).length_le hle
  | signal hd =>
      rcases handleSignal_slots s with hsl | hsl
      · refine ⟨?_, ?_, ?_⟩
        · rw [hsl]; exact List.nodup_nil
        · intro id hid; rw [hsl] at hid; simp at hid
        · rw [hsl]; simp
      · refine ⟨?_, ?_, ?_⟩
        · rw [hsl]; exact hnd
        · intro id hid
          rw [hsl] at hid
          rw [handleSignal_nextId]
          exact hlt _ hid
        · rw [hsl, handleSignal_capacity]
          exact hle

lemma step_capacity {s s' : MState} {e : MEvent} (h : Step s e s') :
    s'.capacity = s.capacity := by
  cases h with
  | signal hd => exact handleSignal_capacity s
  | _ => rfl

lemma steps_inv {s s' : MState} {tr : List MEvent} (h : Steps s tr s')
    (hi : Inv s) : Inv s' := by
  induction h with
  | refl => exact hi
  | cons hstep _ ih => exact ih (step_inv hstep hi)

lemma steps_capacity {s s' : MState} {tr : List MEvent} (h : Steps s tr s') :
    s'.capacity = s.capacity := by
  induction h with
  | refl => rfl
  | cons hstep _ ih => exact ih.trans (step_capacity hstep)

/-- Once the `_work` greenlet has left its loop, no transition re-enters it,
and no transition can be a pool admission. -/
lemma step_exited {s s' : MState} {e : MEvent} (h : Step s e s')
    (hp : s.phase = Phase.exited) :
    s'.phase = Phase.exited ∧ e.isAdmit = false := by
  cases h with
  | enterDequeue hd hp' hs => rw [hp] at hp'; exact absurd hp' (by simp)
  | observeStop hd hp' hs => rw [hp] at hp'; exact absurd hp' (by simp)
  | dqStopRaised hd hp' hs => rw [hp] at hp'; exact absurd hp' (by simp)
  | dqCall hd hp' hs hcap => rw [hp] at hp'; exact absurd hp' (by simp)
  | fullSleep hd hp' hs hcap => rw [hp] at hp'; exact absurd hp' (by simp)
  | dqTimeout hd hp' => rw [hp] at hp'; exact absurd hp' (by simp)
  | dqReturned hd hp' => rw [hp] at hp'; exact absurd hp' (by simp)
  | dqEmptyRetry hd hp' => rw [hp] at hp'; exact absurd hp' (by simp)
  | dqEmptyBreak hd hp' => rw [hp] at hp'; exact absurd hp' (by simp)
  | spawn hd hp' hcap => rw [hp] at hp'; exact absurd hp' (by simp)
  | complete st hd hm => exact ⟨hp, rfl⟩
  | signal hd => exact ⟨(handleSignal_phase s).trans hp, rfl⟩
  | workerKilled hd hs hp' => exact absurd hp hp'

/-- Along any run starting where the loop has exited, every label is a
non-admission and the loop stays exited. -/
lemma steps_exited {s s' : MState} {tr : List MEvent} (h : Steps s tr s')
    (hp : s.phase = Phase.exited) :
    s'.phase = Phase.exited ∧ ∀ e ∈ tr, e.isAdmit = false := by
  induction h with
  | refl => exact ⟨hp, by intro e he; simp at he⟩
  | cons hstep _ ih =>
      obtain ⟨hp1, hadm⟩ := step_exited hstep hp
      obtain ⟨hfin, hall⟩ := ih hp1
      refine ⟨hfin, ?_⟩
      intro e he
      rcases List.mem_cons.mp he with rfl | h1
      · exact hadm
      · exact hall _ h1

/-- How many more completion callbacks the slot with identity `id` can
still fire from state `s`: one while it is in flight or not yet allocated,
none once it has been allocated and retired. -/
def doneBound (s : MState) (id : Nat) : Nat :=
  if id ∈ s.slots then 1 else if id < s.nextId then 0 else 1

lemma step_doneBound {s s' : MState} {e : MEvent} (h : Step s e s')
    (hi : Inv s) (id : Nat) :
    (if MEvent.isCompleteOf id e then 1 else 0) + doneBound s' id ≤
      doneBound s id := by
  obtain ⟨hnd, hlt, hle⟩ := hi
  cases h with
  | enterDequeue hd hp hs => simp [MEvent.isCompleteOf, doneBound]
  | observeStop hd hp hs => simp [MEvent.isCompleteOf, doneBound]
  | dqStopRaised hd hp hs => simp [MEvent.isCompleteOf, doneBound]
  | dqCall hd hp hs hcap => simp [MEvent.isCompleteOf, doneBound]
  | fullSleep hd hp hs hcap => simp [MEvent.isCompleteOf, doneBound]
  | dqTimeout hd hp => simp [MEvent.isCompleteOf, doneBound]
  | dqReturned hd hp => simp [MEvent.isCompleteOf, doneBound]
  | dqEmptyRetry hd hp => simp [MEvent.isCompleteOf, doneBound]
  | dqEmptyBreak hd hp => simp [MEvent.isCompleteOf, doneBound]
  | workerKilled hd hs hp => simp [MEvent.isCompleteOf, doneBound]
  | spawn hd hp hcap =>
      simp only [MEvent.isCompleteOf, if_false, Nat.zero_add, doneBound]
      by_cases h1 : id ∈ s.slots
      · simp [h1, List.mem_cons, doneBound]
      · by_cases h2 : id = s.nextId
        · subst h2
          simp [h1, List.mem_cons, doneBound]
        · have h3 : (id < s.nextId + 1) ↔ (id < s.nextId) := by omega
          simp [h1, h2, List.mem_cons, doneBound, h3]
  | complete st hd hm =>
      rename_i id'
      by_cases h1 : id' = id
      · subst h1
        have hmem : id' ∉ s.slots.erase id' := by
          intro hx
          exact absurd rfl (hnd.mem_erase_iff.mp hx).1
        simp [MEvent.isCompleteOf, doneBound, hm, hmem, hlt _ hm]
      · have hiff : id ∈ s.slots.erase id' ↔ id ∈ s.slots :=
          List.mem_erase_of_ne (fun hx => h1 hx.symm)
        simp [MEvent.isCompleteOf, h1, doneBound, hiff]
  | signal hd =>
      rcases handleSignal_slots s with hsl | hsl
      · simp only [MEvent.isCompleteOf, if_false, Nat.zero_add, doneBound,
          hsl, handleSignal_nextId, List.not_mem_nil, if_neg]
        by_cases h1 : id ∈ s.slots
        · simp [h1, hlt _ h1]
        · simp [h1]
      · simp [MEvent.isCompleteOf, doneBound, hsl, handleSignal_nextId]

/-- Along any run, the completion callback of any given slot fires at most
`doneBound` times. -/
lemma steps_done_le {s s' : MState} {tr : List MEvent} (h : Steps s tr s') :
    Inv s → ∀ id, tr.countP (MEvent.isCompleteOf id) ≤ doneBound s id := by
  induction h with
  | refl => intro _ id; simp
  | cons hstep _ ih =>
      intro hi id
      have h1 := ih (step_inv hstep hi) id
      have h2 := step_doneBound hstep hi id
      rw [List.countP_cons]
      omega

/-! ## Lemmas about the gateway trace -/

lemma filter_fullWaitEvs (w : Nat) : (fullWaitEvs w).filter isLiveness = [] := by
  cases w with
  | zero => rfl
  | succ n =>
      simp [fullWaitEvs, isLiveness, List.filter_replicate]

lemma filter_attemptEvs (t : Option Int) (w : Nat) :
    (attemptEvs t w).filter isLiveness =
      [DEv.heartbeat, DEv.dequeueAny t] := by
  simp [attemptEvs, List.filter_append, filter_fullWaitEvs, isLiveness]

lemma filter_dqRounds (t : Option Int) (rounds : List Nat) (lw : Nat)
    (r : Option Nat) :
    (dqRounds t rounds lw r).filter isLiveness =
      (List.replicate (rounds.length + 1)
        [DEv.heartbeat, DEv.dequeueAny t]).flatten := by
  induction rounds with
  | nil =>
      cases r <;>
        simp [dqRounds, List.filter_append, filter_attemptEvs, isLiveness]
  | cons w rest ih =>
      simp [dqRounds, List.filter_append, filter_attemptEvs, ih,
        List.replicate_succ]

/-! ## Lemmas about the work-loop trace -/

lemma countP_map_jobCompleted (comps : List JobStatus) :
    (comps.map WEv.jobCompleted).countP isJobCompletedEv = comps.length := by
  rw [List.countP_map]
  exact List.countP_eq_length.mpr (fun a _ => rfl)

lemma countP_iterPreEvs_jc (burst : Bool) (it : IterIn) :
    (iterPreEvs burst it).countP isJobCompletedEv = it.completions.length := by
  cases h : it.maintenanceDue <;>
    simp [iterPreEvs, h, List.countP_append, List.countP_cons,
      countP_map_jobCompleted, isJobCompletedEv]

lemma countP_runIter_jc (burst : Bool) (t : Option Int) (it : IterIn) :
    ((runIter burst t it).1).countP isJobCompletedEv =
      it.completions.length := by
  unfold runIter
  cases hstop : it.stopAtTop with
  | true =>
      simp [hstop, List.countP_append, countP_iterPreEvs_jc, isJobCompletedEv]
  | false =>
      cases hdq1 : it.dq1 with
      | raised =>
          simp [hstop, hdq1, List.countP_append, countP_iterPreEvs_jc,
            isJobCompletedEv]
      | errored =>
          simp [hstop, hdq1, List.countP_append, countP_iterPreEvs_jc,
            isJobCompletedEv]
      | ret r =>
          cases r with
          | none =>
              cases hb : burst with
              | false =>
                  simp [hstop, hdq1, hb, List.countP_append,
                    countP_iterPreEvs_jc, isJobCompletedEv]
              | true =>
                  cases hdq2 : it.dq2 with
                  | raised =>
                      simp [hstop, hdq1, hdq2, hb, List.countP_append,
                        countP_iterPreEvs_jc, isJobCompletedEv]
                  | errored =>
                      simp [hstop, hdq1, hdq2, hb, List.countP_append,
                        countP_iterPreEvs_jc, isJobCompletedEv]
                  | ret r2 =>
                      cases r2 <;>
                        simp [hstop, hdq1, hdq2, hb, List.countP_append,
                          countP_iterPreEvs_jc, isJobCompletedEv]
          | some j =>
              cases hb : burst <;>
                simp [hstop, hdq1, hb, List.countP_append,
                  countP_iterPreEvs_jc, isJobCompletedEv]

/-- The returned `did_perform_work` is true exactly when the run started
with it already true or some completion callback fired during the run. -/
lemma workLoop_dpw (burst : Bool) (t : Option Int) :
    ∀ (script : List IterIn) (dpw : Bool),
      ((workLoop burst t dpw script).2.1 = true ↔
        (dpw = true ∨
          0 < ((workLoop burst t dpw script).2.2).countP isJobCompletedEv)) := by
  intro script
  induction script with
  | nil => intro dpw; simp [workLoop]
  | cons it rest ih =>
      intro dpw
      have hcount := countP_runIter_jc burst t it
      cases hr : (runIter burst t it).2 with
      | broke =>
          simp only [workLoop, hr]
          rw [hcount]
          cases dpw <;> cases hc : it.completions <;> simp [hc]
      | errored =>
          simp only [workLoop, hr]
          rw [hcount]
          cases dpw <;> cases hc : it.completions <;> simp [hc]
      | admitted j =>
          simp only [workLoop, hr]
          rw [List.countP_append, hcount]
          rw [ih (dpw || !it.completions.isEmpty)]
          cases dpw <;> cases hc : it.completions <;> simp [hc]

lemma countP_iterPreEvs_dq (burst : Bool) (it : IterIn) :
    (iterPreEvs burst it).countP isDequeueCallEv = 0 := by
  apply List.countP_eq_zero.mpr
  intro a ha
  cases hm : it.maintenanceDue <;> rw [iterPreEvs, hm] at ha <;> simp at ha
  · rcases ha with ⟨st, _, rfl⟩ | rfl <;> simp [isDequeueCallEv]
  · rcases ha with ⟨st, _, rfl⟩ | rfl | rfl <;> simp [isDequeueCallEv]

/-- Per-iteration dequeue calls: exactly two on the burst-mode empty-result
retry path, one otherwise (when the iteration got past the stop check). -/
lemma countP_runIter_dq (burst : Bool) (t : Option Int) (it : IterIn) :
    ((runIter burst t it).1).countP isDequeueCallEv =
      if it.stopAtTop then 0
      else if burst && it.dq1 = DqOutcome.ret none then 2 else 1 := by
  unfold runIter
  cases hstop : it.stopAtTop with
  | true =>
      simp [hstop, List.countP_append, countP_iterPreEvs_dq, isDequeueCallEv]
  | false =>
      cases hdq1 : it.dq1 with
      | raised =>
          cases burst <;>
            simp [hstop, hdq1, List.countP_append, countP_iterPreEvs_dq,
              isDequeueCallEv]
      | errored =>
          cases burst <;>
            simp [hstop, hdq1, List.countP_append, countP_iterPreEvs_dq,
              isDequeueCallEv]
      | ret r =>
          cases r with
          | none =>
              cases hb : burst with
              | false =>
                  simp [hstop, hdq1, hb, List.countP_append,
                    countP_iterPreEvs_dq, isDequeueCallEv]
              | true =>
                  cases hdq2 : it.dq2 with
                  | raised =>
                      simp [hstop, hdq1, hdq2, hb, List.countP_append,
                        countP_iterPreEvs_dq, isDequeueCallEv]
                  | errored =>
                      simp [hstop, hdq1, hdq2, hb, List.countP_append,
                        countP_iterPreEvs_dq, isDequeueCallEv]
                  | ret r2 =>
                      cases r2 <;>
                        simp [hstop, hdq1, hdq2, hb, List.countP_append,
                          countP_iterPreEvs_dq, isDequeueCallEv]
          | some j =>
              cases hb : burst <;>
                simp [hstop, hdq1, hb, List.countP_append,
                  countP_iterPreEvs_dq, isDequeueCallEv]

lemma countP_setupEvs_jc (lvl : String) :
    (setupEvs lvl).countP isJobCompletedEv = 0 := by
  simp [setupEvs, isJobCompletedEv]

lemma countP_schedSetupEvs_jc (ws la b : Bool) :
    (schedSetupEvs ws la b).countP isJobCompletedEv = 0 := by
  cases ws <;> cases la <;> cases b <;>
    simp [schedSetupEvs, isJobCompletedEv]

lemma countP_finallyEvs_jc (ih ws : Bool) :
    (finallyEvs ih ws).countP isJobCompletedEv = 0 := by
  cases ih <;> cases ws <;> simp [finallyEvs, isJobCompletedEv]

lemma hubSwitch_not_mem_iterPreEvs (burst : Bool) (it : IterIn) :
    WEv.hubSwitch ∉ iterPreEvs burst it := by
  intro ha
  cases hm : it.maintenanceDue <;> rw [iterPreEvs, hm] at ha <;> simp at ha

/-! ## Claims -/

/-- Claim C4, counterexample: the claim states that the dispatch loop
computes the dequeue timeout as None in continuous mode and as a bounded
value in one-shot/burst mode.  Line 138 does the opposite: with
`default_worker_ttl = 180`, continuous mode (`burst = False`) computes the
bounded timeout 120, not None, and burst mode computes None, not a bounded
value. -/
theorem C4_counterexample :
    computeTimeout false 180 = some 120 ∧ computeTimeout false 180 ≠ none ∧
      computeTimeout true 180 = none := by
  refine ⟨?_, ?_, ?_⟩ <;> decide

/-- Claim C4, amended: the dispatch loop computes the dequeue timeout as
None (passed through to `dequeue_any`) in burst/one-shot mode, and as the
bounded value `max(1, default_worker_ttl - 60)` in continuous mode; every
bounded timeout is at least 1. -/
theorem C4_timeout_mode_assignment (ttl : Int) :
    computeTimeout true ttl = none
      ∧ computeTimeout false ttl = some (max 1 (ttl - 60))
      ∧ ∀ t, computeTimeout false ttl = some t → 1 ≤ t := by
  refine ⟨rfl, rfl, ?_⟩
  intro t h
  rw [computeTimeout] at h
  simp at h
  exact h ▸ le_max_left 1 (ttl - 60)

/-- Claim C5: whenever the dispatch loop computes a bounded (non-None)
dequeue timeout, that timeout equals `max(1, default_worker_ttl - 60)`; it
is at least 1 for every TTL, and exactly 1 for TTL = 60. -/
theorem C5_bounded_timeout_floor (burst : Bool) (ttl t : Int)
    (h : computeTimeout burst ttl = some t) :
    t = max 1 (ttl - 60) ∧ 1 ≤ t ∧ computeTimeout false 60 = some 1 := by
  cases burst with
  | true => rw [computeTimeout] at h; simp at h
  | false =>
      rw [computeTimeout] at h
      simp at h
      refine ⟨h.symm, h ▸ le_max_left 1 (ttl - 60), by decide⟩

/-- Claim C5, witness at TTL = 60. -/
theorem C5_bounded_timeout_floor_witness :
    (1 : Int) = max 1 ((60 : Int) - 60) ∧ (1 : Int) ≤ 1 ∧
      computeTimeout false 60 = some 1 :=
  C5_bounded_timeout_floor false 60 1 (by decide)

/-- Claim C6: in burst mode, when the dequeue call returns empty, the
iteration yields to the hub exactly once and performs exactly one more
dequeue call (two in total); if that single retry also returns empty the
loop breaks (the batch run concludes the queue drained); no iteration ever
performs more than two dequeue calls, and a continuous-mode iteration that
passes the stop check performs exactly one. -/
theorem C6_burst_single_retry (t : Option Int) (it : IterIn)
    (hstop : it.stopAtTop = false) (h1 : it.dq1 = DqOutcome.ret none) :
    ((runIter true t it).1).countP isDequeueCallEv = 2
      ∧ ((runIter true t it).1).count WEv.hubSwitch = 1
      ∧ (it.dq2 = DqOutcome.ret none → (runIter true t it).2 = IterRes.broke)
      ∧ (∀ it' : IterIn, ((runIter true t it').1).countP isDequeueCallEv ≤ 2)
      ∧ (∀ it' : IterIn, it'.stopAtTop = false →
          ((runIter false t it').1).countP isDequeueCallEv = 1) := by
  have hpre : ∀ b i, (iterPreEvs b i).count WEv.hubSwitch = 0 :=
    fun b i => List.count_eq_zero.mpr (hubSwitch_not_mem_iterPreEvs b i)
  refine ⟨?_, ?_, ?_, ?_, ?_⟩
  · rw [countP_runIter_dq]
    simp [hstop, h1]
  · unfold runIter
    cases hdq2 : it.dq2 with
    | raised =>
        simp [hstop, h1, hdq2, List.count_append, List.count_cons, hpre]
    | errored =>
        simp [hstop, h1, hdq2, List.count_append, List.count_cons, hpre]
    | ret r2 =>
        cases r2 <;>
          simp [hstop, h1, hdq2, List.count_append, List.count_cons, hpre]
  · intro h2
    unfold runIter
    simp [hstop, h1, h2]
  · intro it'
    rw [countP_runIter_dq]
    split
    · omega
    · split <;> omega
  · intro it' h
    rw [countP_runIter_dq]
    simp [h]

/-- Claim C6, witness: a burst iteration whose first dequeue returns empty
and whose retry also returns empty. -/
theorem C6_burst_single_retry_witness :
    ((runIter true none ⟨false, false, [], DqOutcome.ret none,
        DqOutcome.ret none⟩).1).countP isDequeueCallEv = 2
      ∧ ((runIter true none ⟨false, false, [], DqOutcome.ret none,
          DqOutcome.ret none⟩).1).count WEv.hubSwitch = 1
      ∧ ((⟨false, false, [], DqOutcome.ret none, DqOutcome.ret none⟩ :
            IterIn).dq2 = DqOutcome.ret none →
          (runIter true none ⟨false, false, [], DqOutcome.ret none,
            DqOutcome.ret none⟩).2 = IterRes.broke)
      ∧ (∀ it' : IterIn,
          ((runIter true none it').1).countP isDequeueCallEv ≤ 2)
      ∧ (∀ it' : IterIn, it'.stopAtTop = false →
          ((runIter false none it').1).countP isDequeueCallEv = 1) :=
  C6_burst_single_retry none
    ⟨false, false, [], DqOutcome.ret none, DqOutcome.ret none⟩ rfl rfl

/-- Claim C8: in `dequeue_job_and_maintain_ttl`, restricted to
liveness-relevant events, every run is exactly one heartbeat immediately
before each `dequeue_any` attempt, for every attempt, followed by one more
heartbeat after the dequeue call returns; and the completion callback
performs exactly one heartbeat. -/
theorem C8_heartbeat_discipline (timeout : Option Int) (sc : DqScript) :
    ((dequeue_job_and_maintain_ttl false timeout sc).2).filter isLiveness =
      (List.replicate (sc.timeoutRounds.length + 1)
        [DEv.heartbeat, DEv.dequeueAny timeout]).flatten ++ [DEv.heartbeat]
      ∧ ∀ st : JobStatus, (job_done st).count JEffect.heartbeat = 1 := by
  constructor
  · rw [dequeue_job_and_maintain_ttl]
    simp only [Bool.false_eq_true, if_false]
    rw [List.filter_append, filter_dqRounds]
    simp [isLiveness]
  · intro st
    cases st <;> rfl

/-- Inversion: an admission step can only fire below capacity. -/
lemma step_spawn_lt {s s' : MState} {id : Nat}
    (h : Step s (MEvent.spawn id) s') : s.slots.length < s.capacity := by
  cases h with
  | spawn hd hp hcap => exact hcap

/-- Claim C1: for every pool capacity C at least 1 fixed at construction
(default 20), the in-flight count never exceeds C along any run; an
admission step can only ever fire strictly below capacity, and at capacity
the pending admission is blocked but becomes possible again as soon as a
completion frees a slot. -/
theorem C1_pool_capacity_invariant (poolSizeKwarg : Option Nat)
    (hs hw : Bool) (hC : 1 ≤ initPoolSize poolSizeKwarg)
    (tr : List MEvent) (s : MState)
    (h : Steps (initState poolSizeKwarg hs hw) tr s) :
    s.inFlight ≤ initPoolSize poolSizeKwarg
      ∧ initPoolSize none = 20
      ∧ (∀ e s', Step s e s' → e.isAdmit = true →
          s.inFlight < initPoolSize poolSizeKwarg)
      ∧ (s.inFlight = initPoolSize poolSizeKwarg →
          s.phase = Phase.returned → s.dead = false →
          (¬ ∃ s', Step s (MEvent.spawn s.nextId) s')
            ∧ ∃ id st s' s'', Step s (MEvent.complete id st) s'
                ∧ Step s' (MEvent.spawn s'.nextId) s'') := by
  have hcapc : s.capacity = initPoolSize poolSizeKwarg := by
    have h1 := steps_capacity h
    simpa [initState] using h1
  obtain ⟨hnd, hlt, hle⟩ := steps_inv h (initState_inv poolSizeKwarg hs hw)
  refine ⟨?_, rfl, ?_, ?_⟩
  · rw [MState.inFlight, ← hcapc]
    exact hle
  · intro e s' hst hadm
    cases e <;> simp [MEvent.isAdmit] at hadm
    rw [MState.inFlight, ← hcapc]
    exact step_spawn_lt hst
  · intro hfull hph hdead
    rw [MState.inFlight] at hfull
    constructor
    · rintro ⟨s', hst⟩
      have h2 := step_spawn_lt hst
      omega
    · have hpos : 0 < s.slots.length := by omega
      have hne : s.slots ≠ [] := by
        intro hx
        rw [hx] at hpos
        simp at hpos
      obtain ⟨id, hid⟩ := List.exists_mem_of_ne_nil s.slots hne
      have hstep1 : Step s (MEvent.complete id JobStatus.finished)
          { s with slots := s.slots.erase id } :=
        Step.complete JobStatus.finished hdead hid
      have hlen : (s.slots.erase id).length < s.capacity := by
        rw [List.length_erase_of_mem hid]
        omega
      have hstep2 :=
        @Step.spawn { s with slots := s.slots.erase id } hdead hph hlen
      exact ⟨id, JobStatus.finished, _, _, hstep1, hstep2⟩

/-- Claim C1, witness: the initial state of a worker built with the default
pool size. -/
theorem C1_pool_capacity_invariant_witness :
    (initState none false false).inFlight ≤ initPoolSize none
      ∧ initPoolSize none = 20
      ∧ (∀ e s', Step (initState none false false) e s' → e.isAdmit = true →
          (initState none false false).inFlight < initPoolSize none)
      ∧ ((initState none false false).inFlight = initPoolSize none →
          (initState none false false).phase = Phase.returned →
          (initState none false false).dead = false →
          (¬ ∃ s', Step (initState none false false)
              (MEvent.spawn (initState none false false).nextId) s')
            ∧ ∃ id st s' s'',
                Step (initState none false false) (MEvent.complete id st) s'
                  ∧ Step s' (MEvent.spawn s'.nextId) s'') :=
  C1_pool_capacity_invariant none false false (by decide) []
    (initState none false false) Steps.refl

/-- Claim C2: once the dispatch loop has observed the stop request and
exited (phase `exited`), no later transition of any continuation run is an
admission; the loop does exit when it observes the stop request at the top
of an iteration; and a state holding a job already returned by the dequeue
call can still admit it even though the stop request is pending. -/
theorem C2_no_admission_after_stop (poolSizeKwarg : Option Nat)
    (hs hw : Bool) (tr : List MEvent) (s : MState)
    (h : Steps (initState poolSizeKwarg hs hw) tr s)
    (hex : s.phase = Phase.exited) :
    (∀ tr2 s', Steps s tr2 s' → ∀ e ∈ tr2, e.isAdmit = false)
      ∧ (∀ p : MState, p.dead = false → p.phase = Phase.loopTop →
          p.stopRequested = true →
          Step p MEvent.observeStop { p with phase := Phase.exited })
      ∧ (∀ p : MState, p.dead = false → p.phase = Phase.returned →
          p.stopRequested = true → p.slots.length < p.capacity →
          ∃ p', Step p (MEvent.spawn p.nextId) p') := by
  refine ⟨?_, ?_, ?_⟩
  · intro tr2 s' h2 e he
    exact (steps_exited h2 hex).2 e he
  · intro p hd hp hsr
    exact Step.observeStop hd hp hsr
  · intro p hd hp hsr hcap
    exact ⟨_, Step.spawn hd hp hcap⟩

/-- Initial state of the run used to witness claim C2. -/
def warmRunS0 : MState := initState none false true

/-- State after a first termination signal runs `request_stop`. -/
def warmRunS1 : MState := (handleSignal warmRunS0).1

/-- State after the loop observes the stop request and breaks. -/
def warmRunS2 : MState := { warmRunS1 with phase := Phase.exited }

/-- Claim C2, witness: a concrete run in which a warm-shutdown signal
arrives and the loop observes it at the top of the next iteration. -/
theorem C2_no_admission_after_stop_witness :
    (∀ tr2 s', Steps warmRunS2 tr2 s' → ∀ e ∈ tr2, e.isAdmit = false)
      ∧ (∀ p : MState, p.dead = false → p.phase = Phase.loopTop →
          p.stopRequested = true →
          Step p MEvent.observeStop { p with phase := Phase.exited })
      ∧ (∀ p : MState, p.dead = false → p.phase = Phase.returned →
          p.stopRequested = true → p.slots.length < p.capacity →
          ∃ p', Step p (MEvent.spawn p.nextId) p') :=
  C2_no_admission_after_stop none false true
    [MEvent.signal (handleSignal warmRunS0).2, MEvent.observeStop] warmRunS2
    (Steps.cons (Step.signal rfl)
      (Steps.cons (Step.observeStop rfl rfl rfl) Steps.refl))
    rfl

/-- Claim C3: a termination signal received after a warm shutdown was
already requested (handlers re-armed to the cold path) dispatches to
`request_force_stop`, which kills every in-flight execution, terminates the
process, and performs neither a pool drain (`join`) nor a death
registration. -/
theorem C3_cold_shutdown_after_warm (s : MState)
    (h : s.handlersCold = true) :
    handleSignal s = request_force_stop s
      ∧ (request_force_stop s).1.slots = []
      ∧ (request_force_stop s).1.inFlight = 0
      ∧ (request_force_stop s).1.dead = true
      ∧ (request_force_stop s).2 =
          [SEffect.logColdShutdown, SEffect.killAll, SEffect.systemExit]
      ∧ SEffect.registerDeath ∉ (request_force_stop s).2
      ∧ SEffect.joinPool ∉ (request_force_stop s).2 := by
  refine ⟨by simp [handleSignal, h], rfl, rfl, rfl, rfl, ?_, ?_⟩
  · simp [request_force_stop]
  · simp [request_force_stop]

/-- A worker state in which a warm shutdown was already requested and two
executions are still in flight. -/
def coldSignalState : MState :=
  { capacity := 20, slots := [0, 1], nextId := 2, stopRequested := true,
    handlersCold := true, hasScheduler := false, hasWorkerGreenlet := true,
    phase := Phase.dqBlocked, dead := false }

/-- Claim C3, witness: the second signal in a state with two in-flight
executions. -/
theorem C3_cold_shutdown_after_warm_witness :
    handleSignal coldSignalState = request_force_stop coldSignalState
      ∧ (request_force_stop coldSignalState).1.slots = []
      ∧ (request_force_stop coldSignalState).1.inFlight = 0
      ∧ (request_force_stop coldSignalState).1.dead = true
      ∧ (request_force_stop coldSignalState).2 =
          [SEffect.logColdShutdown, SEffect.killAll, SEffect.systemExit]
      ∧ SEffect.registerDeath ∉ (request_force_stop coldSignalState).2
      ∧ SEffect.joinPool ∉ (request_force_stop coldSignalState).2 :=
  C3_cold_shutdown_after_warm coldSignalState rfl

/-- Claim C7: along any run from construction, the completion callback of
any given execution fires at most once (and it fires exactly at the
execution's completion transition); the callback body calls the owning
queue's dependent-enqueue exactly once when the terminal status reads
FINISHED and zero times otherwise. -/
theorem C7_completion_exactly_once (poolSizeKwarg : Option Nat)
    (hs hw : Bool) (tr : List MEvent) (s : MState)
    (h : Steps (initState poolSizeKwarg hs hw) tr s) :
    (∀ id, tr.countP (MEvent.isCompleteOf id) ≤ 1)
      ∧ (∀ st, (job_done st).count JEffect.enqueueDependents =
          if st = JobStatus.finished then 1 else 0) := by
  constructor
  · intro id
    have h1 := steps_done_le h (initState_inv poolSizeKwarg hs hw) id
    have hb : doneBound (initState poolSizeKwarg hs hw) id = 1 := by
      simp [doneBound, initState]
    rw [hb] at h1
    exact h1
  · intro st
    cases st <;> rfl

/-- Claim C7, witness: a run that admits one job and completes it. -/
theorem C7_completion_exactly_once_witness :
    (∀ id, ([MEvent.enterDequeue, MEvent.dqCall, MEvent.dqReturned,
        MEvent.spawn 0, MEvent.complete 0 JobStatus.finished] :
          List MEvent).countP (MEvent.isCompleteOf id) ≤ 1)
      ∧ (∀ st, (job_done st).count JEffect.enqueueDependents =
          if st = JobStatus.finished then 1 else 0) :=
  C7_completion_exactly_once none false false _ _
    (Steps.cons (Step.enterDequeue rfl rfl rfl)
      (Steps.cons (Step.dqCall rfl rfl rfl (by decide))
        (Steps.cons (Step.dqReturned rfl rfl)
          (Steps.cons (Step.spawn rfl rfl (by decide))
            (Steps.cons (Step.complete JobStatus.finished rfl (by decide))
              Steps.refl)))))

/-- Claim C9: for every run of `_work` of a worker that is not a horse,
the trace ends with a death registration on every exit route (normal
break, batch drain, stop interrupt, error, or an unfinished observation),
preceded by a scheduler stop whenever a scheduler was created; the
returned value is true exactly when at least one completion callback fired
during the run; and a burst run over an empty queue (both dequeue calls
return empty, no completion pending) breaks out and returns false. -/
theorem C9_exit_cleanup (cfg : WorkerCfg) (script : List IterIn)
    (burst : Bool) (lvl df lf : String) (mj : Option Nat) (ws : Bool)
    (hh : cfg.isHorse = false) :
    WEv.registerDeath ∈ (_work cfg script burst lvl df lf mj ws).2.2
      ∧ (ws = true →
          WEv.stopScheduler ∈ (_work cfg script burst lvl df lf mj ws).2.2)
      ∧ ((_work cfg script burst lvl df lf mj ws).2.1 = true ↔
          0 < ((_work cfg script burst lvl df lf mj ws).2.2).countP
            isJobCompletedEv)
      ∧ (∀ it : IterIn, it.stopAtTop = false →
          it.dq1 = DqOutcome.ret none → it.dq2 = DqOutcome.ret none →
          it.completions = [] →
          (_work cfg [it] true lvl df lf mj ws).1 = LoopRes.broke
            ∧ (_work cfg [it] true lvl df lf mj ws).2.1 = false) := by
  have hfin : WEv.registerDeath ∈ finallyEvs cfg.isHorse ws := by
    rw [hh]
    cases ws <;> simp [finallyEvs]
  refine ⟨?_, ?_, ?_, ?_⟩
  · simp only [_work]
    exact List.mem_append.mpr (Or.inr hfin)
  · intro hws
    subst hws
    have hsched : WEv.stopScheduler ∈ finallyEvs cfg.isHorse true := by
      rw [hh]
      simp [finallyEvs]
    simp only [_work]
    exact List.mem_append.mpr (Or.inr hsched)
  · have h0 := workLoop_dpw burst (computeTimeout burst cfg.defaultWorkerTtl)
      script false
    simp only [_work]
    rw [List.countP_append, List.countP_append, List.countP_append,
      countP_setupEvs_jc, countP_schedSetupEvs_jc, countP_finallyEvs_jc]
    simp only [Nat.zero_add, Nat.add_zero]
    rw [h0]
    simp
  · intro it h1 h2 h3 h4
    have hri : (runIter true (computeTimeout true cfg.defaultWorkerTtl) it).2 =
        IterRes.broke := by
      unfold runIter
      simp [h1, h2, h3]
    constructor
    · simp only [_work, workLoop, hri]
    · simp only [_work, workLoop, hri]
      simp [h4]

/-- Claim C9, witness: a burst run with an empty observation script of a
non-horse worker without a scheduler. -/
theorem C9_exit_cleanup_witness :
    WEv.registerDeath ∈
        (_work ⟨false, 180, false⟩ [] true "INFO" "d" "f" none false).2.2
      ∧ (false = true →
          WEv.stopScheduler ∈
            (_work ⟨false, 180, false⟩ [] true "INFO" "d" "f" none false).2.2)
      ∧ ((_work ⟨false, 180, false⟩ [] true "INFO" "d" "f" none false).2.1 =
            true ↔
          0 < ((_work ⟨false, 180, false⟩ [] true "INFO" "d" "f" none
            false).2.2).countP isJobCompletedEv)
      ∧ (∀ it : IterIn, it.stopAtTop = false →
          it.dq1 = DqOutcome.ret none → it.dq2 = DqOutcome.ret none →
          it.completions = [] →
          (_work ⟨false, 180, false⟩ [it] true "INFO" "d" "f" none false).1 =
              LoopRes.broke
            ∧ (_work ⟨false, 180, false⟩ [it] true "INFO" "d" "f" none
                false).2.1 = false) :=
  C9_exit_cleanup ⟨false, 180, false⟩ [] true "INFO" "d" "f" none false rfl

/-- Claim C10: the `max_jobs` argument of `work` (and of `_work`) has no
effect: two invocations differing only in `max_jobs` produce identical
results and event traces. -/
theorem C10_max_jobs_ignored (cfg : WorkerCfg) (script : List IterIn)
    (burst : Bool) (loggingLevel dateFormat logFormat : String)
    (maxJobs1 maxJobs2 : Option Nat) (withScheduler : Bool) :
    work cfg script burst loggingLevel dateFormat logFormat maxJobs1
        withScheduler =
      work cfg script burst loggingLevel dateFormat logFormat maxJobs2
        withScheduler
    ∧ _work cfg script burst loggingLevel dateFormat logFormat maxJobs1
        withScheduler =
      _work cfg script burst loggingLevel dateFormat logFormat maxJobs2
        withScheduler :=
  ⟨rfl, rfl⟩

end TgextRq
